import Mathlib

/-!
Verification of the SOFI C++ library (soficpp) against its design document.

The development shallowly embeds the headers of `src/soficpp`:

* `integrity.hpp` -- the integrity lattice variants `integrity_single`,
  `integrity_linear`, `integrity_bitset`, `integrity_set`, `integrity_shared`;
* `entity.hpp`    -- access controllers (`acl_single`, `acl`, `ops_acl`),
  integrity modification functions, entities;
* `engine.hpp`    -- the SOFI engine (`test_access`, `pass_integrity`,
  `test_min_integrity`, `operation`);
* `agent.hpp`     -- `agent_result` and `copy_agent`.

C++ machine values are modelled by `Int`, `Finset`, `Bool` and `Option`;
`std::optional` becomes `Option`, `std::shared_ptr` held by an ACL map
becomes `Option` (a null pointer is `none`).  The C++ lattice operators
`+` and `*` of each integrity class are written `join` and `meet`.
-/

/-! ## Integrity algebra (`integrity.hpp`) -/

/-- Bundle of the bounded-lattice laws that the design requires of every
integrity variant: idempotence, commutativity, associativity and absorption
of join and meet, boundedness, consistency of the order with join and meet,
and neutrality of the bounds. -/
structure IntegrityLaws (α : Type u) (join meet : α → α → α)
    (le : α → α → Prop) (bot top : α) : Prop where
  join_idem : ∀ a, join a a = a
  meet_idem : ∀ a, meet a a = a
  join_comm : ∀ a b, join a b = join b a
  meet_comm : ∀ a b, meet a b = meet b a
  join_assoc : ∀ a b c, join (join a b) c = join a (join b c)
  meet_assoc : ∀ a b c, meet (meet a b) c = meet a (meet b c)
  absorb_join : ∀ a b, join a (meet a b) = a
  absorb_meet : ∀ a b, meet a (join a b) = a
  bot_le : ∀ a, le bot a
  le_top : ∀ a, le a top
  le_iff_join : ∀ a b, (le a b ↔ join a b = b)
  le_iff_meet : ∀ a b, (le a b ↔ meet a b = a)
  bot_join : ∀ a, join bot a = a
  top_meet : ∀ a, meet top a = a

/-- Class `soficpp::integrity_single`: the one-element integrity lattice.
The C++ class has no data members; all objects compare equal. -/
structure integrity_single where
deriving DecidableEq

/-- Operator `integrity_single::operator+`: always returns the unique value. -/
def integrity_single.join (_ _ : integrity_single) : integrity_single := {}

/-- Operator `integrity_single::operator*`: always returns the unique value. -/
def integrity_single.meet (_ _ : integrity_single) : integrity_single := {}

/-- Function `integrity_single::min`. -/
def integrity_single.min : integrity_single := {}

/-- Function `integrity_single::max`. -/
def integrity_single.max : integrity_single := {}

/-- Ordering of `integrity_single`: the defaulted three-way comparison makes
all values equivalent, so less-or-equal always holds. -/
def integrity_single.le (_ _ : integrity_single) : Prop := True

/-- Class `soficpp::integrity_linear<T, Min, Max>`: integrity values from the
closed interval of integers between `lo` and `hi`. -/
def integrity_linear (lo hi : Int) : Type := {x : Int // lo ≤ x ∧ x ≤ hi}

/-- Operator `integrity_linear::operator+`: numeric maximum of the values. -/
def integrity_linear.join {lo hi : Int} (a b : integrity_linear lo hi) :
    integrity_linear lo hi :=
  ⟨a.val ⊔ b.val, le_trans a.property.1 le_sup_left, sup_le a.property.2 b.property.2⟩

/-- Operator `integrity_linear::operator*`: numeric minimum of the values. -/
def integrity_linear.meet {lo hi : Int} (a b : integrity_linear lo hi) :
    integrity_linear lo hi :=
  ⟨a.val ⊓ b.val, le_inf a.property.1 b.property.1, le_trans inf_le_left a.property.2⟩

/-- Function `integrity_linear::min`: the value `Min`; needs `Min <= Max`
(the C++ template has the constraint `requires (Min <= Max)`). -/
def integrity_linear.min (lo hi : Int) (h : lo ≤ hi) : integrity_linear lo hi :=
  ⟨lo, le_refl lo, h⟩

/-- Function `integrity_linear::max`: the value `Max`. -/
def integrity_linear.max (lo hi : Int) (h : lo ≤ hi) : integrity_linear lo hi :=
  ⟨hi, h, le_refl hi⟩

/-- Ordering of `integrity_linear`: the defaulted three-way comparison
compares the stored numeric values. -/
def integrity_linear.le {lo hi : Int} (a b : integrity_linear lo hi) : Prop :=
  a.val ≤ b.val

/-- Class `soficpp::integrity_bitset<N>`: a set of bits indexed by `Fin N`,
modelling `std::bitset<N>` viewed as a set of bit positions. -/
structure integrity_bitset (N : Nat) where
  val : Finset (Fin N)
deriving DecidableEq

/-- Operator `integrity_bitset::operator+`: set union (bitwise or). -/
def integrity_bitset.join {N : Nat} (a b : integrity_bitset N) : integrity_bitset N :=
  ⟨a.val ∪ b.val⟩

/-- Operator `integrity_bitset::operator*`: set intersection (bitwise and). -/
def integrity_bitset.meet {N : Nat} (a b : integrity_bitset N) : integrity_bitset N :=
  ⟨a.val ∩ b.val⟩

/-- Function `integrity_bitset::min`: the empty set. -/
def integrity_bitset.min (N : Nat) : integrity_bitset N := ⟨∅⟩

/-- Function `integrity_bitset::max`: the set of all `N` bits. -/
def integrity_bitset.max (N : Nat) : integrity_bitset N := ⟨Finset.univ⟩

/-- Operator `integrity_bitset::operator<=>`: equal sets are equivalent; if
the intersection equals the left set it is less, if it equals the right set it
is greater; otherwise the sets are unordered (`none`). -/
def integrity_bitset.cmp {N : Nat} (a b : integrity_bitset N) : Option Ordering :=
  if a.val = b.val then some Ordering.eq
  else if a.val ∩ b.val = a.val then some Ordering.lt
  else if a.val ∩ b.val = b.val then some Ordering.gt
  else none

/-- Less-or-equal derived from `integrity_bitset.cmp` the way
`std::partial_ordering` defines `<=`. -/
def integrity_bitset.le {N : Nat} (a b : integrity_bitset N) : Prop :=
  a.cmp b = some Ordering.lt ∨ a.cmp b = some Ordering.eq

/-- Class `soficpp::integrity_set<T>`: a finite set of values of `T`, or the
distinguished `universe` token (constructor `univ` here), which is strictly
greater than every finite set. -/
inductive integrity_set (T : Type u) : Type u where
  | set (s : Finset T) : integrity_set T
  | univ : integrity_set T
deriving DecidableEq

/-- Operator `integrity_set::operator+`: `universe` absorbs; otherwise set
union. -/
def integrity_set.join {T : Type u} [DecidableEq T] :
    integrity_set T → integrity_set T → integrity_set T
  | univ, _ => univ
  | set _, univ => univ
  | set s, set t => set (s ∪ t)

/-- Operator `integrity_set::operator*`: `universe` is the identity;
otherwise set intersection. -/
def integrity_set.meet {T : Type u} [DecidableEq T] :
    integrity_set T → integrity_set T → integrity_set T
  | univ, b => b
  | set s, univ => set s
  | set s, set t => set (s ∩ t)

/-- Function `integrity_set::min`: the empty set. -/
def integrity_set.min (T : Type u) : integrity_set T := set ∅

/-- Function `integrity_set::max`: the `universe` token. -/
def integrity_set.max (T : Type u) : integrity_set T := univ

/-- Less-or-equal derived from `integrity_set::operator<=>`: `universe` is
equivalent to itself and strictly above every finite set; two finite sets are
ordered by inclusion. -/
def integrity_set.le {T : Type u} :
    integrity_set T → integrity_set T → Prop
  | univ, univ => True
  | univ, set _ => False
  | set _, univ => True
  | set s, set t => s ⊆ t

/-- Class `soficpp::integrity_shared<T>`: a wrapper around an inner integrity
value with structural sharing.  Only the stored value is semantically
relevant; sharing of the C++ `std::shared_ptr` target is not observable
through the integrity interface. -/
structure integrity_shared (T : Type u) where
  val : T
deriving DecidableEq

/-- Operator `integrity_shared::operator+`: joins the inner values, reusing
one of the operands when the result equals its inner value (the sharing
branches of the C++ code). -/
def integrity_shared.join {T : Type u} [DecidableEq T] (jn : T → T → T)
    (a b : integrity_shared T) : integrity_shared T :=
  let result := jn a.val b.val
  if result = a.val then a
  else if result = b.val then b
  else ⟨result⟩

/-- Operator `integrity_shared::operator*`: meets the inner values, reusing
one of the operands when the result equals its inner value. -/
def integrity_shared.meet {T : Type u} [DecidableEq T] (mt : T → T → T)
    (a b : integrity_shared T) : integrity_shared T :=
  let result := mt a.val b.val
  if result = a.val then a
  else if result = b.val then b
  else ⟨result⟩

/-- Function `integrity_shared::min`: wraps the minimum of the inner type. -/
def integrity_shared.min {T : Type u} (bo : T) : integrity_shared T := ⟨bo⟩

/-- Function `integrity_shared::max`: wraps the maximum of the inner type. -/
def integrity_shared.max {T : Type u} (tp : T) : integrity_shared T := ⟨tp⟩

/-- Operator `integrity_shared::operator<=>`: delegates to the inner values. -/
def integrity_shared.le {T : Type u} (le : T → T → Prop)
    (a b : integrity_shared T) : Prop :=
  le a.val b.val

/-! ## Operations, verdicts, access controllers (`entity.hpp`) -/

/-- Capability set of a SOFI operation (concept `soficpp::operation` and class
`soficpp::operation_base<E>`): an identifier of type `K` (also used as the ACL
key) and the read/write flags, which a concrete operation class overrides. -/
structure operation_base (K : Type u) where
  id : K
  is_read : Bool := false
  is_write : Bool := false

/-- Member `operation_base::key`: equal to the identifier. -/
def operation_base.key {K : Type u} (o : operation_base K) : K := o.id

/-- Class `soficpp::simple_verdict`: stores the results of the access test and
of the minimum integrity test, both initially `false` (denied). -/
structure simple_verdict where
  access_test : Bool := false
  min_test : Bool := false
deriving DecidableEq

/-- Member `simple_verdict::allowed`: both stored results must be `true`. -/
def simple_verdict.allowed (v : simple_verdict) : Bool :=
  v.access_test && v.min_test

/-- Enumeration `soficpp::controller_test`: the kind of test an access
controller is asked to perform. -/
inductive controller_test where
  | access : controller_test
  | min_subj : controller_test
  | min_obj : controller_test
deriving DecidableEq

/-- Class `soficpp::acl_single`: an ACL consisting of a single integrity. -/
structure acl_single (I : Type u) where
  integrity : I

/-- Member `acl_single::test`: the operation is allowed iff the subject
integrity is greater or equal to the stored integrity; the operation, verdict
and kind arguments are ignored by this variant. -/
def acl_single.test {I K : Type u} [LE I] [DecidableRel ((· ≤ ·) : I → I → Prop)]
    (c : acl_single I) (subj : I) (_op : operation_base K) (_v : simple_verdict)
    (_kind : controller_test) : Bool :=
  decide (c.integrity ≤ subj)

/-- Class `soficpp::acl`: an ACL that is a container of integrities. -/
def acl (I : Type u) : Type u := List I

/-- Member `acl::test`: the operation is allowed iff the subject integrity is
greater or equal to at least one element of the list (an empty list denies). -/
def acl.test {I K : Type u} [LE I] [DecidableRel ((· ≤ ·) : I → I → Prop)]
    (c : acl I) (subj : I) (_op : operation_base K) (_v : simple_verdict)
    (_kind : controller_test) : Bool :=
  c.any fun i => decide (i ≤ subj)

/-- Class `soficpp::ops_acl`: an operation-dependent ACL, a map from operation
keys to (possibly null) inner ACLs plus a (possibly null) default inner ACL.
The `std::map` with `std::shared_ptr` values becomes an association list with
`Option` values; a null pointer is `none`. -/
structure ops_acl (I K : Type u) where
  map : List (K × Option (acl I))
  default_op : Option (acl I) := none

/-- Member `ops_acl::test`: looks up the operation key in the map; a found
non-null inner ACL decides, a found null inner ACL denies; if the key is not
found, a non-null `default_op` decides and a null one denies. -/
def ops_acl.test {I K : Type u} [LE I] [DecidableRel ((· ≤ ·) : I → I → Prop)]
    [DecidableEq K] (a : ops_acl I K) (subj : I) (op : operation_base K)
    (v : simple_verdict) (kind : controller_test) : Bool :=
  match a.map.lookup (operation_base.key op) with
  | some (some inner) => inner.test subj op v kind
  | some none => false
  | none =>
    match a.default_op with
    | some d => d.test subj op v kind
    | none => false

/-- Concept `soficpp::integrity_function`, in the shape of class
`soficpp::dyn_integrity_fun`: an integrity modification function is a callable
taking the passed integrity, a limit and the operation, together with its
safety status reported by `safe()`. -/
structure dyn_integrity_fun (I K : Type u) where
  fn : I → I → operation_base K → I
  safe : Bool

/-- Function `dyn_integrity_fun::min`: always returns the minimum integrity;
reported safe. -/
def dyn_integrity_fun.min {I K : Type u} [Lattice I] [OrderBot I] :
    dyn_integrity_fun I K :=
  { fn := fun _ _ _ => ⊥, safe := true }

/-- Function `dyn_integrity_fun::identity`: no target function and safe, so a
call returns the argument meeted with the limit. -/
def dyn_integrity_fun.identity {I K : Type u} [Lattice I] :
    dyn_integrity_fun I K :=
  { fn := fun i limit _ => i ⊓ limit, safe := true }

/-- Function `dyn_integrity_fun::max`: always returns the limit; reported
safe. -/
def dyn_integrity_fun.max {I K : Type u} [Lattice I] :
    dyn_integrity_fun I K :=
  { fn := fun _ limit _ => limit, safe := true }

/-- Concept `soficpp::entity`: the view of an entity used by the engine.  The
two access controllers are represented by their `test` member functions
(subject integrity, operation, verdict, kind of test). -/
structure entity (I K : Type u) where
  integrity : I
  min_integrity : I → operation_base K → simple_verdict → controller_test → Bool
  access_ctrl : I → operation_base K → simple_verdict → controller_test → Bool
  test_fun : dyn_integrity_fun I K
  prov_fun : dyn_integrity_fun I K
  recv_fun : dyn_integrity_fun I K

/-- Default-constructed `soficpp::basic_entity`, instantiated as in the
repository's own tests with the list ACL as minimum-integrity controller and
`ops_acl` as access controller.  The default member initializers in the source
(entity.hpp lines 723-733) are ill-formed C++: the function members are
initialized from `I::identity()` and `I::min()` where `I` is the integrity
type (which has no `identity` member and is not callable), and the minimum
integrity from `integrity_t::min()` through an explicit constructor of another
type.  Modelled from the spec: integrity `I::min`, default constructed (hence
all-denying) minimum-integrity controller and access controller, identity test
function, minimum providing and receiving functions (doc comment at entity.hpp
lines 646-649 and test case `basic_entity` of test_entity.cpp). -/
def basic_entity_default {I K : Type u} [Lattice I] [OrderBot I]
    [DecidableRel ((· ≤ ·) : I → I → Prop)] [DecidableEq K] : entity I K :=
  { integrity := ⊥
    min_integrity := fun i op v kind => acl.test ([] : acl I) i op v kind
    access_ctrl := fun i op v kind => ops_acl.test ({ map := [] } : ops_acl I K) i op v kind
    test_fun := dyn_integrity_fun.identity
    prov_fun := dyn_integrity_fun.min
    recv_fun := dyn_integrity_fun.min }

/-! ## The SOFI engine (`engine.hpp`)

The virtual hooks `init_verdict`, `after_test_access`, `after_test_min` and
`execute_op` have empty default implementations in class `soficpp::engine`;
the embedding models that base engine, so the hooks are omitted. -/

/-- Member `engine::test_access`: creates a default verdict, evaluates the
object's access controller and stores the result in the verdict via
`access_test`.  The C++ statement at engine.hpp line 100 is ill-formed (it
wraps the test in a call to an undeclared `access_test`, passes the subject
entity where the `access_controller` concept requires its integrity, and
omits the kind argument), so this definition is modelled from the spec:
Step 1 evaluates `object.access_ctrl.test(subject.integrity, op, verdict,
access)` and stores the result via `verdict.access_test`. -/
def engine.test_access {I K : Type u} (subj obj : entity I K)
    (op : operation_base K) (_execute : Bool) : simple_verdict × Bool :=
  let verdict : simple_verdict := {}
  let allow := obj.access_ctrl subj.integrity op verdict controller_test.access
  ({ verdict with access_test := allow }, allow)

/-- Member `engine::pass_integrity`, translated literally from engine.hpp
lines 110-124, including the condition `!writer.test_fun().safe()` guarding
the clamp of the provided integrity (line 115). -/
def engine.pass_integrity {I K : Type u} [Lattice I] [OrderBot I] [DecidableEq I]
    (writer reader : entity I K) (op : operation_base K) : I :=
  let i_test0 := reader.test_fun.fn writer.integrity reader.integrity op
  let i_test := if reader.test_fun.safe = false then i_test0 ⊓ reader.integrity else i_test0
  let i_prov0 := writer.prov_fun.fn writer.integrity writer.integrity op
  if i_prov0 ≠ ⊥ then
    let i_prov := if writer.test_fun.safe = false then i_prov0 ⊓ writer.integrity else i_prov0
    let i_recv0 := reader.recv_fun.fn i_prov i_prov op
    if i_recv0 ≠ ⊥ then
      let i_recv := if reader.recv_fun.safe = false then i_recv0 ⊓ i_prov else i_recv0
      i_test ⊔ i_recv
    else i_test
  else i_test

/-- Modelled from the spec: the propagation function `pass` of §4.6, whose
clamp of the provided integrity is applied when the writer's *providing*
function is unsafe (`if ¬writer.prov_fun.safe: p = p * writer.integrity`),
the contract mandated by the design notes in §4.6 and §9.  It differs from
`engine.pass_integrity` (the source) only in the safety flag tested before
that clamp. -/
def engine.pass_integrity_spec {I K : Type u} [Lattice I] [OrderBot I] [DecidableEq I]
    (writer reader : entity I K) (op : operation_base K) : I :=
  let i_test0 := reader.test_fun.fn writer.integrity reader.integrity op
  let i_test := if reader.test_fun.safe = false then i_test0 ⊓ reader.integrity else i_test0
  let i_prov0 := writer.prov_fun.fn writer.integrity writer.integrity op
  if i_prov0 ≠ ⊥ then
    let i_prov := if writer.prov_fun.safe = false then i_prov0 ⊓ writer.integrity else i_prov0
    let i_recv0 := reader.recv_fun.fn i_prov i_prov op
    if i_recv0 ≠ ⊥ then
      let i_recv := if reader.recv_fun.safe = false then i_recv0 ⊓ i_prov else i_recv0
      i_test ⊔ i_recv
    else i_test
  else i_test

/-- Member `engine::test_min_integrity`: checks the prospective integrities
against the minimum-integrity controllers and stores the conjunction in the
verdict via `min_test`.  The C++ statements at engine.hpp lines 144-148 are
ill-formed (they invoke a `std::optional` as a function and compare an
integrity with the minimum-integrity access controller using `>=`, although
the `entity` concept requires `min_t` to satisfy `access_controller`), so the
checks are modelled from the spec: Step 3 evaluates `allow_min_subj = i_subj
absent OR subject.min_integrity.test(i_subj, op, v, min_subj)` and
symmetrically `allow_min_obj` with kind `min_obj`. -/
def engine.test_min_integrity {I K : Type u} (subj obj : entity I K)
    (op : operation_base K) (_execute : Bool) (v : simple_verdict)
    (i_subj i_obj : Option I) : simple_verdict × Bool :=
  let allow_min_obj := match i_obj with
    | none => true
    | some i => obj.min_integrity i op v controller_test.min_obj
  let allow_min_subj := match i_subj with
    | none => true
    | some i => subj.min_integrity i op v controller_test.min_subj
  ({ v with min_test := allow_min_subj && allow_min_obj },
   allow_min_subj && allow_min_obj)

/-- Member `engine::operation` (engine.hpp lines 61-81): runs the access test
and returns its verdict on denial; computes the prospective object integrity
for a write and the prospective subject integrity for a read; runs the minimum
integrity test and returns its verdict on denial; if `execute` is set, commits
the prospective integrities.  Mutation of the subject and object through the
by-reference parameters is modelled by returning the new subject, the new
object and the verdict. -/
def engine.operation {I K : Type u} [Lattice I] [OrderBot I] [DecidableEq I]
    (subj obj : entity I K) (op : operation_base K) (execute : Bool) :
    entity I K × entity I K × simple_verdict :=
  let ta := engine.test_access subj obj op execute
  if ta.2 = false then (subj, obj, ta.1)
  else
    let i_obj : Option I :=
      if op.is_write then some (engine.pass_integrity subj obj op) else none
    let i_subj : Option I :=
      if op.is_read then some (engine.pass_integrity obj subj op) else none
    let tm := engine.test_min_integrity subj obj op execute ta.1 i_subj i_obj
    if tm.2 = false then (subj, obj, tm.1)
    else if execute then
      ({ subj with integrity := i_subj.getD subj.integrity },
       { obj with integrity := i_obj.getD obj.integrity }, tm.1)
    else (subj, obj, tm.1)

/-! ## Agents (`agent.hpp`) -/

/-- Enumeration `soficpp::agent_result::result`. -/
inductive agent_result_code where
  | success : agent_result_code
  | error : agent_result_code
  | untrusted : agent_result_code
deriving DecidableEq

/-- Struct `soficpp::agent_result`: a stored result code, `success` by
default. -/
structure agent_result where
  code : agent_result_code := agent_result_code.success
deriving DecidableEq

/-- Member `agent_result::ok` (also the conversion to `bool`): the result
represents success iff the code equals `success`. -/
def agent_result.ok (r : agent_result) : Bool :=
  decide (r.code = agent_result_code.success)

/-- Class `soficpp::copy_agent`: exports and imports by copying between an
entity and a message of the same type; the results of the operations are the
configurable members `export_result` and `import_result`. -/
structure copy_agent (T : Type u) where
  export_result : agent_result := {}
  import_result : agent_result := {}

/-- Member `copy_agent::export_msg`: copies the entity to the message iff
`export_result` converts to `true`, and returns `export_result`.  The
by-reference message parameter is modelled by returning its new value. -/
def copy_agent.export_msg {T : Type u} (a : copy_agent T) (e m : T) :
    T × agent_result :=
  (if a.export_result.ok then e else m, a.export_result)

/-- Member `copy_agent::import_msg`: copies the message to the entity iff
`import_result` converts to `true`, and returns `import_result`.  The
by-reference entity parameter is modelled by returning its new value. -/
def copy_agent.import_msg {T : Type u} (a : copy_agent T) (m e : T) :
    T × agent_result :=
  (if a.import_result.ok then m else e, a.import_result)

/-! ## Concrete fixtures

Small concrete entities over `I = Nat` (a lattice with bottom `0`) and key
type `K = Nat`, used to evaluate the engine definitions on explicit inputs. -/

/-- A no-flow operation with key `0`. -/
def opNF : operation_base Nat := { id := 0 }

/-- An access-controller test function that allows everything. -/
def acTrue : Nat → operation_base Nat → simple_verdict → controller_test → Bool :=
  fun _ _ _ _ => true

/-- An access-controller test function that denies everything. -/
def acFalse : Nat → operation_base Nat → simple_verdict → controller_test → Bool :=
  fun _ _ _ _ => false

/-- A writer whose providing function is unsafe and yields `2`, above the
writer's own integrity `1`, while the writer's test function is safe. -/
def w2writer : entity Nat Nat :=
  { integrity := 1
    min_integrity := acTrue
    access_ctrl := acTrue
    test_fun := { fn := fun i _ _ => i, safe := true }
    prov_fun := { fn := fun _ _ _ => 2, safe := false }
    recv_fun := { fn := fun _ _ _ => 0, safe := true } }

/-- A reader with integrity `0` whose receiving function passes the provided
integrity through, exposing the value handed to it. -/
def w2reader : entity Nat Nat :=
  { integrity := 0
    min_integrity := acTrue
    access_ctrl := acTrue
    test_fun := { fn := fun _ _ _ => 0, safe := true }
    prov_fun := { fn := fun _ _ _ => 0, safe := true }
    recv_fun := { fn := fun i _ _ => i, safe := true } }

/-- A writer with integrity `1` whose test, providing and receiving functions
are all safe and obey the safety bound. -/
def w5writer : entity Nat Nat :=
  { integrity := 1
    min_integrity := acTrue
    access_ctrl := acTrue
    test_fun := { fn := fun _ l _ => l, safe := true }
    prov_fun := { fn := fun _ l _ => l, safe := true }
    recv_fun := { fn := fun _ _ _ => 0, safe := true } }

/-- A reader with integrity `0` whose test, providing and receiving functions
are all safe and obey the safety bound. -/
def w5reader : entity Nat Nat :=
  { integrity := 0
    min_integrity := acTrue
    access_ctrl := acTrue
    test_fun := { fn := fun _ _ _ => 0, safe := true }
    prov_fun := { fn := fun _ _ _ => 0, safe := true }
    recv_fun := { fn := fun _ l _ => l, safe := true } }

/-- An entity whose access controller denies everything. -/
def entDeny : entity Nat Nat :=
  { integrity := 0
    min_integrity := acTrue
    access_ctrl := acFalse
    test_fun := { fn := fun _ _ _ => 0, safe := true }
    prov_fun := { fn := fun _ _ _ => 0, safe := true }
    recv_fun := { fn := fun _ _ _ => 0, safe := true } }

/-! ## Theorems -/

/-- C10: `copy_agent::export_msg` copies the entity into the message and
`copy_agent::import_msg` copies the message into the entity exactly when the
corresponding configured result has code `success`; for `error` or `untrusted`
the output argument is left unchanged; in every case the configured
`agent_result` is returned as-is, and its truthiness equals
`code == success`. -/
theorem C10_copy_agent_behavior {T : Type} (a : copy_agent T) (e m : T) :
    (copy_agent.export_msg a e m).2 = a.export_result ∧
    (copy_agent.import_msg a m e).2 = a.import_result ∧
    (a.export_result.code = agent_result_code.success →
      (copy_agent.export_msg a e m).1 = e) ∧
    (a.export_result.code ≠ agent_result_code.success →
      (copy_agent.export_msg a e m).1 = m) ∧
    (a.import_result.code = agent_result_code.success →
      (copy_agent.import_msg a m e).1 = m) ∧
    (a.import_result.code ≠ agent_result_code.success →
      (copy_agent.import_msg a m e).1 = e) ∧
    (a.export_result.ok = true ↔ a.export_result.code = agent_result_code.success) ∧
    (a.import_result.ok = true ↔ a.import_result.code = agent_result_code.success) := by
  refine ⟨rfl, rfl, ?_, ?_, ?_, ?_, by simp [agent_result.ok],
    by simp [agent_result.ok]⟩ <;> intro h <;>
    simp [copy_agent.export_msg, copy_agent.import_msg, agent_result.ok, h]

/-- Closed instance of C10: a default `copy_agent` (success results) copies
the entity into the message. -/
theorem C10_witness : (copy_agent.export_msg ({} : copy_agent Nat) 1 2).1 = 1 :=
  (C10_copy_agent_behavior ({} : copy_agent Nat) 1 2).2.2.1 rfl

/-- C8: `ops_acl::test` dispatches on `op.key()`: a key mapped to a non-null
inner ACL delegates to it, a key mapped to a null ACL denies, an absent key
delegates to a non-null `default_op`, and an absent key with a null
`default_op` denies. -/
theorem C8_ops_acl_dispatch {I K : Type} [LE I]
    [DecidableRel ((· ≤ ·) : I → I → Prop)] [DecidableEq K]
    (a : ops_acl I K) (subj : I) (op : operation_base K) (v : simple_verdict)
    (kind : controller_test) :
    (∀ inner : acl I, a.map.lookup (operation_base.key op) = some (some inner) →
      ops_acl.test a subj op v kind = acl.test inner subj op v kind) ∧
    (a.map.lookup (operation_base.key op) = some none →
      ops_acl.test a subj op v kind = false) ∧
    (∀ d : acl I, a.map.lookup (operation_base.key op) = none →
      a.default_op = some d →
      ops_acl.test a subj op v kind = acl.test d subj op v kind) ∧
    (a.map.lookup (operation_base.key op) = none → a.default_op = none →
      ops_acl.test a subj op v kind = false) := by
  refine ⟨?_, ?_, ?_, ?_⟩
  · intro inner h
    simp [ops_acl.test, h]
  · intro h
    simp [ops_acl.test, h]
  · intro d h hd
    simp [ops_acl.test, h, hd]
  · intro h hd
    simp [ops_acl.test, h, hd]

/-- Closed instance of C8: a per-operation ACL with key `1` mapped to the
one-element inner ACL `[5]` delegates to that inner ACL. -/
theorem C8_witness :
    ops_acl.test ({ map := [(1, some ([5] : acl Nat))] } : ops_acl Nat Nat) 7
      { id := 1 } {} controller_test.access =
    acl.test ([5] : acl Nat) 7 { id := 1 } {} controller_test.access :=
  (C8_ops_acl_dispatch ({ map := [(1, some ([5] : acl Nat))] } : ops_acl Nat Nat)
    7 { id := 1 } {} controller_test.access).1 [5] rfl

/-- C7: every provided access controller (`acl_single`, `acl`, `ops_acl`) is
monotone in the subject integrity: for every operation, verdict and kind, if
`test` returns `true` for integrity `i` and `i ≤ i'`, then `test` returns
`true` for `i'`. -/
theorem C7_ac_monotone {I K : Type} [Preorder I]
    [DecidableRel ((· ≤ ·) : I → I → Prop)] [DecidableEq K]
    (i i' : I) (hle : i ≤ i') (op : operation_base K) (v : simple_verdict)
    (kind : controller_test) :
    (∀ c : acl_single I, acl_single.test c i op v kind = true →
      acl_single.test c i' op v kind = true) ∧
    (∀ c : acl I, acl.test c i op v kind = true →
      acl.test c i' op v kind = true) ∧
    (∀ a : ops_acl I K, ops_acl.test a i op v kind = true →
      ops_acl.test a i' op v kind = true) := by
  have hlist : ∀ c : acl I, acl.test c i op v kind = true →
      acl.test c i' op v kind = true := by
    intro c h
    simp only [acl.test, List.any_eq_true, decide_eq_true_eq] at h ⊢
    obtain ⟨x, hx, hxi⟩ := h
    exact ⟨x, hx, le_trans hxi hle⟩
  refine ⟨?_, hlist, ?_⟩
  · intro c h
    simp only [acl_single.test, decide_eq_true_eq] at h ⊢
    exact le_trans h hle
  · intro a h
    unfold ops_acl.test at h ⊢
    cases hl : a.map.lookup (operation_base.key op) with
    | none =>
      rw [hl] at h
      cases hd : a.default_op with
      | none => rw [hd] at h; exact absurd h Bool.false_ne_true
      | some d => rw [hd] at h; exact hlist d h
    | some o =>
      rw [hl] at h
      cases o with
      | none => exact absurd h Bool.false_ne_true
      | some inner => exact hlist inner h

/-- Closed instance of C7: the single-integrity ACL `1` allows subject
integrity `1`, and by monotonicity also the larger subject integrity `2`. -/
theorem C7_witness :
    (1 : Nat) ≤ 2 ∧
    acl_single.test (⟨1⟩ : acl_single Nat) 2 opNF {} controller_test.access = true :=
  ⟨by decide,
   (C7_ac_monotone 1 2 (by decide) opNF {} controller_test.access).1 ⟨1⟩ (by decide)⟩

/-- C3 (supporting theorem): in the engine as modelled from the spec (the
source statement being ill-formed, see `engine.test_access`), the access test
stores the access controller's result in the verdict, and a denied access test
makes `operation` return immediately with both entities unchanged and a fully
denied verdict, before any prospective integrity is computed. -/
theorem C3_access_denied_short_circuit {I K : Type} [Lattice I] [OrderBot I]
    [DecidableEq I] (subj obj : entity I K) (op : operation_base K)
    (execute : Bool)
    (h : obj.access_ctrl subj.integrity op {} controller_test.access = false) :
    engine.test_access subj obj op execute =
      ({ access_test := false, min_test := false }, false) ∧
    engine.operation subj obj op execute =
      (subj, obj, { access_test := false, min_test := false }) := by
  constructor
  · simp [engine.test_access, h]
  · simp [engine.operation, engine.test_access, h]

/-- Closed instance of the C3 supporting theorem: an all-denying object access
controller makes `operation` return a denied verdict with unchanged
entities. -/
theorem C3_witness :
    engine.operation entDeny entDeny opNF true =
      (entDeny, entDeny, { access_test := false, min_test := false }) :=
  (C3_access_denied_short_circuit entDeny entDeny opNF true rfl).2

/-- C4 (supporting theorem): in the engine as modelled from the spec (the
source statements being ill-formed, see `engine.test_min_integrity`), the
minimum-integrity step treats an absent prospective integrity as allowed,
evaluates the subject's and object's minimum-integrity controllers on present
prospective integrities with kinds `min_subj` and `min_obj`, and stores the
conjunction in the verdict via `min_test`, also returning it as the
decision. -/
theorem C4_test_min_integrity_model {I K : Type} (subj obj : entity I K)
    (op : operation_base K) (execute : Bool) (v : simple_verdict)
    (i_subj i_obj : Option I) :
    engine.test_min_integrity subj obj op execute v i_subj i_obj =
      ({ v with min_test :=
          (i_subj.all fun i => subj.min_integrity i op v controller_test.min_subj) &&
          (i_obj.all fun i => obj.min_integrity i op v controller_test.min_obj) },
       (i_subj.all fun i => subj.min_integrity i op v controller_test.min_subj) &&
       (i_obj.all fun i => obj.min_integrity i op v controller_test.min_obj)) := by
  cases i_subj <;> cases i_obj <;> simp [engine.test_min_integrity, Option.all]

/-- C9 (supporting theorem): the default-constructed `basic_entity` as
modelled from the spec and the repository's tests (the source default member
initializers being ill-formed, see `basic_entity_default`) has minimum
integrity, an all-denying minimum-integrity controller and access controller,
the identity test function, and the minimum providing and receiving
functions. -/
theorem C9_basic_entity_defaults :
    (basic_entity_default : entity Nat Nat).integrity = ⊥ ∧
    (∀ (i : Nat) (op : operation_base Nat) (v : simple_verdict)
      (kind : controller_test),
      (basic_entity_default : entity Nat Nat).min_integrity i op v kind = false) ∧
    (∀ (i : Nat) (op : operation_base Nat) (v : simple_verdict)
      (kind : controller_test),
      (basic_entity_default : entity Nat Nat).access_ctrl i op v kind = false) ∧
    (basic_entity_default : entity Nat Nat).test_fun = dyn_integrity_fun.identity ∧
    (basic_entity_default : entity Nat Nat).prov_fun = dyn_integrity_fun.min ∧
    (basic_entity_default : entity Nat Nat).recv_fun = dyn_integrity_fun.min := by
  refine ⟨rfl, ?_, ?_, rfl, rfl, rfl⟩ <;> intro i op v kind <;>
    simp [basic_entity_default, acl.test, ops_acl.test]

/-- C2: evaluation of the source `pass_integrity` (which tests
`writer.test_fun().safe()` before clamping the provided integrity) at a writer
whose providing function is unsafe and provides `2` while the writer's own
integrity is `1`: the unclamped value `2` is handed to the reader's receiving
function (which passes it through), so the result exceeds the writer's
integrity; the propagation function mandated by the spec clamps it to `1`. -/
theorem C2_code_bug_eval :
    w2writer.prov_fun.safe = false ∧
    w2writer.integrity = 1 ∧
    engine.pass_integrity w2writer w2reader opNF = 2 ∧
    ¬(engine.pass_integrity w2writer w2reader opNF ≤ w2writer.integrity) ∧
    engine.pass_integrity_spec w2writer w2reader opNF = 1 := by
  refine ⟨rfl, rfl, by decide, by decide, by decide⟩

/-- C5 (counterexample): a writer with integrity `1` and a reader with
integrity `0` whose test, providing and receiving functions are all safe and
all obey the safety bound, yet `pass_integrity` returns `1`, which is not
below the reader's integrity `0`. -/
theorem C5_counterexample :
    w5reader.test_fun.safe = true ∧ w5writer.prov_fun.safe = true ∧
    w5reader.recv_fun.safe = true ∧
    (∀ (i l : Nat) (o : operation_base Nat), w5reader.test_fun.fn i l o ≤ l) ∧
    (∀ (i l : Nat) (o : operation_base Nat), w5writer.prov_fun.fn i l o ≤ l) ∧
    (∀ (i l : Nat) (o : operation_base Nat), w5reader.recv_fun.fn i l o ≤ l) ∧
    engine.pass_integrity w5writer w5reader opNF = 1 ∧
    w5reader.integrity = 0 ∧
    ¬(engine.pass_integrity w5writer w5reader opNF ≤ w5reader.integrity) := by
  refine ⟨rfl, rfl, rfl, ?_, ?_, ?_, by decide, rfl, by decide⟩ <;>
    intro i l o <;> simp [w5reader, w5writer]

/-- C5 (amended): when the reader's test function, the writer's providing
function and the reader's receiving function all report safe and all obey the
safety bound `f(i, limit, op) ≤ limit`, `pass_integrity` is bounded by the
join of the reader's and the writer's current integrities (the reader's
integrity alone is not an upper bound, because a non-minimum provided and
received integrity is joined into the result). -/
theorem C5_amended_pass_le_join {I K : Type} [Lattice I] [OrderBot I]
    [DecidableEq I] (writer reader : entity I K) (op : operation_base K)
    (hts : reader.test_fun.safe = true)
    (_hps : writer.prov_fun.safe = true)
    (hrs : reader.recv_fun.safe = true)
    (ht : ∀ (i l : I) (o : operation_base K), reader.test_fun.fn i l o ≤ l)
    (hp : ∀ (i l : I) (o : operation_base K), writer.prov_fun.fn i l o ≤ l)
    (hr : ∀ (i l : I) (o : operation_base K), reader.recv_fun.fn i l o ≤ l) :
    engine.pass_integrity writer reader op ≤ reader.integrity ⊔ writer.integrity := by
  simp only [engine.pass_integrity, hts, hrs, Bool.true_eq_false, if_false]
  split_ifs with hB hC hD hD
  · exact sup_le_sup (ht _ _ _) (le_trans (hr _ _ _) inf_le_right)
  · exact le_sup_of_le_left (ht _ _ _)
  · exact sup_le_sup (ht _ _ _) (le_trans (hr _ _ _) (hp _ _ _))
  · exact le_sup_of_le_left (ht _ _ _)
  · exact le_sup_of_le_left (ht _ _ _)

/-- Closed instance of the amended C5: at the counterexample entities the
propagation result `1` is bounded by the join `0 ⊔ 1` of the reader's and the
writer's integrities. -/
theorem C5_amended_witness :
    engine.pass_integrity w5writer w5reader opNF ≤
      w5reader.integrity ⊔ w5writer.integrity :=
  C5_amended_pass_le_join w5writer w5reader opNF rfl rfl rfl
    (fun i l o => by simp [w5reader]) (fun i l o => by simp [w5writer])
    (fun i l o => by simp [w5reader])

/-- C1: frame conditions of `engine::operation`: a denied or non-executed
operation leaves both integrities unchanged; an allowed non-write operation
leaves the object's integrity unchanged; an allowed non-read operation leaves
the subject's integrity unchanged. -/
theorem C1_operation_frame {I K : Type} [Lattice I] [OrderBot I] [DecidableEq I]
    (subj obj : entity I K) (op : operation_base K) (execute : Bool)
    (s' o' : entity I K) (v : simple_verdict)
    (h : engine.operation subj obj op execute = (s', o', v)) :
    ((v.allowed = false ∨ execute = false) →
      s'.integrity = subj.integrity ∧ o'.integrity = obj.integrity) ∧
    (v.allowed = true → op.is_write = false → o'.integrity = obj.integrity) ∧
    (v.allowed = true → op.is_read = false → s'.integrity = subj.integrity) := by
  unfold engine.operation at h
  simp only [engine.test_access, engine.test_min_integrity] at h
  repeat' split at h
  all_goals
    injection h with h1 h23
  all_goals
    injection h23 with h2 h3
  all_goals
    subst h1
  all_goals
    subst h2
  all_goals
    subst h3
  all_goals
    simp_all [simple_verdict.allowed]

/-- Closed instance of C1: an operation denied by an all-denying access
controller leaves both integrities unchanged. -/
theorem C1_witness :
    (engine.operation entDeny entDeny opNF true).1.integrity = entDeny.integrity ∧
    (engine.operation entDeny entDeny opNF true).2.1.integrity = entDeny.integrity :=
  (C1_operation_frame entDeny entDeny opNF true
    (engine.operation entDeny entDeny opNF true).1
    (engine.operation entDeny entDeny opNF true).2.1
    (engine.operation entDeny entDeny opNF true).2.2 rfl).1 (Or.inl (by decide))

/-- The one-element lattice `integrity_single` satisfies all required lattice
laws. -/
theorem integrity_single_laws :
    IntegrityLaws integrity_single integrity_single.join integrity_single.meet
      integrity_single.le integrity_single.min integrity_single.max :=
  ⟨fun _ => rfl, fun _ => rfl, fun _ _ => rfl, fun _ _ => rfl,
   fun _ _ _ => rfl, fun _ _ _ => rfl, fun _ _ => rfl, fun _ _ => rfl,
   fun _ => trivial, fun _ => trivial,
   fun _ _ => ⟨fun _ => rfl, fun _ => trivial⟩,
   fun _ _ => ⟨fun _ => rfl, fun _ => trivial⟩,
   fun _ => rfl, fun _ => rfl⟩

/-- The linear integrity lattice satisfies all required lattice laws. -/
theorem integrity_linear_laws (lo hi : Int) (h : lo ≤ hi) :
    IntegrityLaws (integrity_linear lo hi) integrity_linear.join
      integrity_linear.meet integrity_linear.le
      (integrity_linear.min lo hi h) (integrity_linear.max lo hi h) := by
  refine ⟨?_, ?_, ?_, ?_, ?_, ?_, ?_, ?_, ?_, ?_, ?_, ?_, ?_, ?_⟩
  · intro a; apply Subtype.ext; apply sup_idem
  · intro a; apply Subtype.ext; apply inf_idem
  · intro a b; apply Subtype.ext; apply sup_comm
  · intro a b; apply Subtype.ext; apply inf_comm
  · intro a b c; apply Subtype.ext; apply sup_assoc
  · intro a b c; apply Subtype.ext; apply inf_assoc
  · intro a b; apply Subtype.ext; apply sup_inf_self
  · intro a b; apply Subtype.ext; apply inf_sup_self
  · intro a; exact a.property.1
  · intro a; exact a.property.2
  · intro a b
    constructor
    · intro hab; exact Subtype.ext (sup_eq_right.mpr hab)
    · intro hj; exact sup_eq_right.mp (congrArg Subtype.val hj)
  · intro a b
    constructor
    · intro hab; exact Subtype.ext (inf_eq_left.mpr hab)
    · intro hj; exact inf_eq_left.mp (congrArg Subtype.val hj)
  · intro a; exact Subtype.ext (sup_eq_right.mpr a.property.1)
  · intro a; exact Subtype.ext (inf_eq_right.mpr a.property.2)

/-- Two bit-set integrities with equal bit sets are equal. -/
theorem integrity_bitset.ext {N : Nat} {a b : integrity_bitset N}
    (h : a.val = b.val) : a = b := by
  cases a; cases b; cases h; rfl

/-- Equality of bit-set integrities is equality of the bit sets. -/
theorem integrity_bitset.eq_iff_val {N : Nat} (a b : integrity_bitset N) :
    a = b ↔ a.val = b.val :=
  ⟨congrArg integrity_bitset.val, integrity_bitset.ext⟩

/-- The ordering of `integrity_bitset` derived from its three-way comparison
is the subset relation on the bit sets. -/
theorem integrity_bitset.le_iff {N : Nat} (a b : integrity_bitset N) :
    a.le b ↔ a.val ⊆ b.val := by
  unfold integrity_bitset.le integrity_bitset.cmp
  split_ifs with h1 h2 h3 <;> simp_all [Finset.inter_eq_left]
  intro hab
  exact h1 (Finset.Subset.antisymm hab h3)

/-- The bit-set integrity lattice satisfies all required lattice laws. -/
theorem integrity_bitset_laws (N : Nat) :
    IntegrityLaws (integrity_bitset N) integrity_bitset.join
      integrity_bitset.meet integrity_bitset.le
      (integrity_bitset.min N) (integrity_bitset.max N) := by
  refine ⟨?_, ?_, ?_, ?_, ?_, ?_, ?_, ?_, ?_, ?_, ?_, ?_, ?_, ?_⟩
  · intro a; apply integrity_bitset.ext; simp [integrity_bitset.join]
  · intro a; apply integrity_bitset.ext; simp [integrity_bitset.meet]
  · intro a b; exact integrity_bitset.ext (Finset.union_comm a.val b.val)
  · intro a b; exact integrity_bitset.ext (Finset.inter_comm a.val b.val)
  · intro a b c; exact integrity_bitset.ext (Finset.union_assoc a.val b.val c.val)
  · intro a b c; exact integrity_bitset.ext (Finset.inter_assoc a.val b.val c.val)
  · intro a b
    apply integrity_bitset.ext
    show a.val ∪ a.val ∩ b.val = a.val
    ext x; simp; tauto
  · intro a b
    apply integrity_bitset.ext
    show a.val ∩ (a.val ∪ b.val) = a.val
    ext x; simp; tauto
  · intro a; rw [integrity_bitset.le_iff]; exact Finset.empty_subset a.val
  · intro a; rw [integrity_bitset.le_iff]; exact Finset.subset_univ a.val
  · intro a b
    rw [integrity_bitset.le_iff, integrity_bitset.eq_iff_val]
    exact Iff.symm Finset.union_eq_right
  · intro a b
    rw [integrity_bitset.le_iff, integrity_bitset.eq_iff_val]
    exact Iff.symm Finset.inter_eq_left
  · intro a; apply integrity_bitset.ext; simp [integrity_bitset.join,
      integrity_bitset.min]
  · intro a; apply integrity_bitset.ext; simp [integrity_bitset.meet,
      integrity_bitset.max]

/-- The set-or-universe integrity lattice satisfies all required lattice
laws. -/
theorem integrity_set_laws (T : Type) [DecidableEq T] :
    IntegrityLaws (integrity_set T) integrity_set.join integrity_set.meet
      integrity_set.le (integrity_set.min T) (integrity_set.max T) := by
  refine ⟨?_, ?_, ?_, ?_, ?_, ?_, ?_, ?_, ?_, ?_, ?_, ?_, ?_, ?_⟩
  · intro a
    cases a <;> simp [integrity_set.join]
  · intro a
    cases a <;> simp [integrity_set.meet]
  · intro a b
    cases a <;> cases b <;> simp [integrity_set.join, Finset.union_comm]
  · intro a b
    cases a <;> cases b <;> simp [integrity_set.meet, Finset.inter_comm]
  · intro a b c
    cases a <;> cases b <;> cases c <;>
      simp [integrity_set.join, Finset.union_assoc]
  · intro a b c
    cases a <;> cases b <;> cases c <;>
      simp [integrity_set.meet, Finset.inter_assoc]
  · intro a b
    cases a with
    | univ => rfl
    | set s =>
      cases b with
      | univ => simp [integrity_set.join, integrity_set.meet]
      | set t =>
        simp only [integrity_set.join, integrity_set.meet,
          integrity_set.set.injEq]
        ext x; simp; tauto
  · intro a b
    cases a with
    | univ => rfl
    | set s =>
      cases b with
      | univ => rfl
      | set t =>
        simp only [integrity_set.join, integrity_set.meet,
          integrity_set.set.injEq]
        ext x; simp; tauto
  · intro a
    cases a with
    | univ => trivial
    | set s => exact Finset.empty_subset s
  · intro a
    cases a <;> trivial
  · intro a b
    cases a <;> cases b <;>
      simp [integrity_set.join, integrity_set.le, Finset.union_eq_right]
  · intro a b
    cases a <;> cases b <;>
      simp [integrity_set.meet, integrity_set.le, Finset.inter_eq_left]
  · intro a
    cases a <;> simp [integrity_set.join, integrity_set.min]
  · intro a
    cases a <;> simp [integrity_set.meet, integrity_set.max]

/-- The sharing branches of `integrity_shared::operator+` never change the
value: the join always carries the join of the inner values. -/
theorem integrity_shared.join_val {T : Type u} [DecidableEq T]
    (jn : T → T → T) (a b : integrity_shared T) :
    integrity_shared.join jn a b = ⟨jn a.val b.val⟩ := by
  show (if jn a.val b.val = a.val then a
    else if jn a.val b.val = b.val then b
    else ⟨jn a.val b.val⟩) = ⟨jn a.val b.val⟩
  split_ifs with h1 h2
  · cases a; simp_all
  · cases b; simp_all
  · rfl

/-- The sharing branches of `integrity_shared::operator*` never change the
value: the meet always carries the meet of the inner values. -/
theorem integrity_shared.meet_val {T : Type u} [DecidableEq T]
    (mt : T → T → T) (a b : integrity_shared T) :
    integrity_shared.meet mt a b = ⟨mt a.val b.val⟩ := by
  show (if mt a.val b.val = a.val then a
    else if mt a.val b.val = b.val then b
    else ⟨mt a.val b.val⟩) = ⟨mt a.val b.val⟩
  split_ifs with h1 h2
  · cases a; simp_all
  · cases b; simp_all
  · rfl

/-- The shared wrapper around any inner integrity type satisfying the lattice
laws satisfies them as well, with the inherited operations and order. -/
theorem integrity_shared_laws {T : Type} [DecidableEq T]
    (jn mt : T → T → T) (lep : T → T → Prop) (bo tp : T)
    (h : IntegrityLaws T jn mt lep bo tp) :
    IntegrityLaws (integrity_shared T) (integrity_shared.join jn)
      (integrity_shared.meet mt) (integrity_shared.le lep)
      (integrity_shared.min bo) (integrity_shared.max tp) := by
  refine ⟨?_, ?_, ?_, ?_, ?_, ?_, ?_, ?_, ?_, ?_, ?_, ?_, ?_, ?_⟩
  · intro a
    rw [integrity_shared.join_val, h.join_idem]
  · intro a
    rw [integrity_shared.meet_val, h.meet_idem]
  · intro a b
    rw [integrity_shared.join_val, integrity_shared.join_val, h.join_comm]
  · intro a b
    rw [integrity_shared.meet_val, integrity_shared.meet_val, h.meet_comm]
  · intro a b c
    rw [integrity_shared.join_val, integrity_shared.join_val,
      integrity_shared.join_val, integrity_shared.join_val]
    exact congrArg integrity_shared.mk (h.join_assoc a.val b.val c.val)
  · intro a b c
    rw [integrity_shared.meet_val, integrity_shared.meet_val,
      integrity_shared.meet_val, integrity_shared.meet_val]
    exact congrArg integrity_shared.mk (h.meet_assoc a.val b.val c.val)
  · intro a b
    rw [integrity_shared.meet_val, integrity_shared.join_val]
    show integrity_shared.mk (jn a.val (mt a.val b.val)) = a
    rw [h.absorb_join]
  · intro a b
    rw [integrity_shared.join_val, integrity_shared.meet_val]
    show integrity_shared.mk (mt a.val (jn a.val b.val)) = a
    rw [h.absorb_meet]
  · intro a
    exact h.bot_le a.val
  · intro a
    exact h.le_top a.val
  · intro a b
    rw [integrity_shared.join_val]
    cases b with
    | mk y => simpa [integrity_shared.le] using h.le_iff_join a.val y
  · intro a b
    cases a with
    | mk x => simpa [integrity_shared.le, integrity_shared.meet_val]
        using h.le_iff_meet x b.val
  · intro a
    rw [integrity_shared.join_val]
    show integrity_shared.mk (jn bo a.val) = a
    rw [h.bot_join]
  · intro a
    rw [integrity_shared.meet_val]
    show integrity_shared.mk (mt tp a.val) = a
    rw [h.top_meet]

/-- C6: every provided integrity variant satisfies the required bounded
lattice laws: join and meet are idempotent, commutative and associative,
absorption holds, every value lies between `min()` and `max()`, and the
ordering is consistent with the operations (`a ≤ b` iff `a+b = b` iff
`a*b = a`, so in particular `min()+a = a` and `max()*a = a`).  The variant
`integrity_shared` inherits the laws from any inner integrity type satisfying
them. -/
theorem C6_integrity_lattice_laws :
    IntegrityLaws integrity_single integrity_single.join integrity_single.meet
      integrity_single.le integrity_single.min integrity_single.max ∧
    (∀ (lo hi : Int) (h : lo ≤ hi),
      IntegrityLaws (integrity_linear lo hi) integrity_linear.join
        integrity_linear.meet integrity_linear.le
        (integrity_linear.min lo hi h) (integrity_linear.max lo hi h)) ∧
    (∀ N : Nat,
      IntegrityLaws (integrity_bitset N) integrity_bitset.join
        integrity_bitset.meet integrity_bitset.le
        (integrity_bitset.min N) (integrity_bitset.max N)) ∧
    (∀ (T : Type) [DecidableEq T],
      IntegrityLaws (integrity_set T) integrity_set.join integrity_set.meet
        integrity_set.le (integrity_set.min T) (integrity_set.max T)) ∧
    (∀ (T : Type) [DecidableEq T] (jn mt : T → T → T) (lep : T → T → Prop)
      (bo tp : T), IntegrityLaws T jn mt lep bo tp →
      IntegrityLaws (integrity_shared T) (integrity_shared.join jn)
        (integrity_shared.meet mt) (integrity_shared.le lep)
        (integrity_shared.min bo) (integrity_shared.max tp)) :=
  ⟨integrity_single_laws, integrity_linear_laws, integrity_bitset_laws,
   fun T inst => @integrity_set_laws T inst,
   fun T inst jn mt lep bo tp h => @integrity_shared_laws T inst jn mt lep bo tp h⟩

/-- Closed instance of C6: the laws at the linear lattice over `[0, 1]` and at
the shared wrapper around the one-element lattice, with the hypotheses
discharged concretely. -/
theorem C6_witness :
    IntegrityLaws (integrity_linear 0 1) integrity_linear.join
      integrity_linear.meet integrity_linear.le
      (integrity_linear.min 0 1 zero_le_one)
      (integrity_linear.max 0 1 zero_le_one) ∧
    IntegrityLaws (integrity_shared integrity_single)
      (integrity_shared.join integrity_single.join)
      (integrity_shared.meet integrity_single.meet)
      (integrity_shared.le integrity_single.le)
      (integrity_shared.min integrity_single.min)
      (integrity_shared.max integrity_single.max) :=
  ⟨C6_integrity_lattice_laws.2.1 0 1 zero_le_one,
   C6_integrity_lattice_laws.2.2.2.2 integrity_single integrity_single.join
     integrity_single.meet integrity_single.le integrity_single.min
     integrity_single.max C6_integrity_lattice_laws.1⟩
